import Mathlib

/-!
Shallow embedding of `0x02-redis_basic/exercise.py`: a `Cache` class over a
Redis key-value store, with `count_calls` / `call_history` decorators on
`store`, readers `get` / `get_str` / `get_int`, and a `replay` reporter.

Modelling conventions:
* Redis byte strings are modelled as Lean `String` (the code only ever stores
  UTF-8 text, decimal renderings of numbers, or caller-supplied byte blobs,
  and decodes them back with UTF-8; so `bytes.decode("utf-8")` is the
  identity in the model).
* The Redis database is a record of three total maps: plain string keys,
  list keys and integer counters.  The program keeps these three key
  families disjoint ("<uuid>", "Cache.store:inputs"/":outputs",
  "Cache.store"), so modelling them as separate fields is faithful; `FLUSHDB`
  wipes all three.
* `uuid.uuid4()` is modelled by passing the freshly generated key as an
  explicit argument to `store`.
* A possible `StoreUnavailable` failure of the underlying `self._redis.set`
  is modelled by a boolean `fail` argument: when it is `true` the base
  operation raises (returns no key and leaves the database unchanged), and
  the exception propagates through the wrappers.
* Python's `int(bytes)` is modelled by `parsePyInt`: strip ASCII
  whitespace, optional sign, then a nonempty run of ASCII decimal digits in
  which single underscore separators may appear between digits (PEP 515) —
  what CPython accepts for a `bytes` argument (Unicode digits are a
  `str`-only feature and cannot reach `get_int`, whose input is the raw
  reply bytes).  `str(int)` is modelled by `intRepr` (decimal rendering,
  `-` for negatives).
-/

namespace RedisBasic

/-- A Python value accepted by `Cache.store`:
`Union[str, bytes, int, float]`.  The `float` alternative exercises
floating-point `repr` and is outside this embedding; the claims are settled
on the `str` / `bytes` / `int` alternatives. -/
inductive PyVal where
  | s (t : String)
  | b (t : String)
  | i (n : Int)
deriving DecidableEq, Repr

/-- Decimal digit character, for rendering numbers the way `str(int)` does. -/
def digitChar : Nat → Char
  | 0 => '0'
  | 1 => '1'
  | 2 => '2'
  | 3 => '3'
  | 4 => '4'
  | 5 => '5'
  | 6 => '6'
  | 7 => '7'
  | 8 => '8'
  | _ => '9'

/-- Big-endian decimal digit list of a natural number (what `str` prints). -/
def natToDigits (n : Nat) : List Char :=
  if _h : n < 10 then [digitChar n]
  else natToDigits (n / 10) ++ [digitChar (n % 10)]
termination_by n
decreasing_by exact Nat.div_lt_self (by omega) (by omega)

/-- `str(n)` for a natural number. -/
def natRepr (n : Nat) : String := ⟨natToDigits n⟩

/-- `str(n)` for a Python integer. -/
def intRepr (n : Int) : String :=
  if n < 0 then "-" ++ natRepr n.natAbs else natRepr n.natAbs

/-- The bytes redis-py sends for a stored value: `str` is UTF-8 encoded
(identity in the model), `bytes` pass through, and `int` is rendered in
decimal (`repr`).  This is what `SET` writes and what an unconverted `GET`
returns. -/
def encodeVal : PyVal → String
  | .s t => t
  | .b t => t
  | .i n => intRepr n

/-- Numeric value of a decimal digit character. -/
def digitVal (c : Char) : Nat := c.toNat - 48

/-- Value of a big-endian decimal digit list. -/
def digitsToNat (cs : List Char) : Nat :=
  cs.foldl (fun a c => 10 * a + digitVal c) 0

/-- The whitespace characters stripped by Python's `int(str)`
(ASCII subset; enough for this program, which never stores padded
numerals). -/
def isSpaceChar (c : Char) : Bool :=
  c == ' ' || c == '\t' || c == '\n' || c == '\r' || c == '\x0b' || c == '\x0c'

/-- Strip leading and trailing whitespace. -/
def stripChars (cs : List Char) : List Char :=
  ((cs.dropWhile isSpaceChar).reverse.dropWhile isSpaceChar).reverse

/-- Continuation of a digit run: decimal digits in which a single
underscore may appear only between two digits (PEP 515), so `"1_0"` is
accepted while `"1_"`, `"1__0"` and `"_1"` are not.  The flag records
whether the previous character was an underscore (then another underscore
or the end of input is invalid). -/
def validDigitsFrom : Bool → List Char → Bool
  | afterUnd, [] => !afterUnd
  | afterUnd, c :: rest =>
    if c = '_' then !afterUnd && validDigitsFrom true rest
    else c.isDigit && validDigitsFrom false rest

/-- A digit run acceptable to Python's `int`: nonempty, starting with a
digit, with underscores only between digits. -/
def validDigitRun : List Char → Bool
  | [] => false
  | c :: rest => c.isDigit && validDigitsFrom false rest

/-- Remove the underscore separators before computing the numeric value,
as CPython does. -/
def stripUnderscores (cs : List Char) : List Char :=
  cs.filter (fun c => !(c == '_'))

/-- Optional sign then a nonempty digit run, possibly with underscore
separators between digits (the stripped core of Python's `int()`).  `none`
models the `ValueError` raised on malformed input. -/
def parseSigned : List Char → Option Int
  | [] => none
  | c :: rest =>
    if c = '-' then
      if validDigitRun rest then
        some (-(digitsToNat (stripUnderscores rest) : Int))
      else none
    else if c = '+' then
      if validDigitRun rest then
        some ((digitsToNat (stripUnderscores rest) : Int))
      else none
    else
      if validDigitRun (c :: rest) then
        some ((digitsToNat (stripUnderscores (c :: rest)) : Int))
      else none

/-- Python's `int()` applied to a character list: strip surrounding
whitespace, then optional sign and a nonempty digit run. -/
def parsePyIntChars (cs : List Char) : Option Int :=
  parseSigned (stripChars cs)

/-- Python's `int()` on a (byte) string. -/
def parsePyInt (s : String) : Option Int := parsePyIntChars s.toList

theorem digitChar_isDigit (d : Nat) (h : d < 10) :
    (digitChar d).isDigit = true := by
  interval_cases d <;> decide

theorem digitVal_digitChar (d : Nat) (h : d < 10) :
    digitVal (digitChar d) = d := by
  interval_cases d <;> decide

theorem natToDigits_ne_nil (n : Nat) : natToDigits n ≠ [] := by
  unfold natToDigits
  split <;> simp

theorem natToDigits_all_digit (n : Nat) :
    ∀ c ∈ natToDigits n, c.isDigit = true := by
  induction n using Nat.strong_induction_on with
  | _ n ih =>
    unfold natToDigits
    split
    · next h =>
      intro c hc
      simp only [List.mem_singleton] at hc
      subst hc
      exact digitChar_isDigit n h
    · next h =>
      intro c hc
      rcases List.mem_append.mp hc with h1 | h2
      · exact ih (n / 10) (Nat.div_lt_self (by omega) (by omega)) c h1
      · simp only [List.mem_singleton] at h2
        subst h2
        exact digitChar_isDigit _ (Nat.mod_lt _ (by omega))

theorem digitsToNat_append_singleton (xs : List Char) (c : Char) :
    digitsToNat (xs ++ [c]) = 10 * digitsToNat xs + digitVal c := by
  simp [digitsToNat, List.foldl_append]

theorem digitsToNat_natToDigits (n : Nat) :
    digitsToNat (natToDigits n) = n := by
  induction n using Nat.strong_induction_on with
  | _ n ih =>
    unfold natToDigits
    split
    · next h =>
      simp [digitsToNat, digitVal_digitChar n h]
    · next h =>
      rw [digitsToNat_append_singleton,
        ih (n / 10) (Nat.div_lt_self (by omega) (by omega)),
        digitVal_digitChar _ (Nat.mod_lt _ (by omega))]
      omega

theorem dropWhile_eq_self_of_all {p : Char → Bool} {l : List Char}
    (h : ∀ c ∈ l, p c = false) : l.dropWhile p = l := by
  cases l with
  | nil => rfl
  | cons a l => simp [List.dropWhile_cons, h a (by simp)]

theorem isDigit_not_space (c : Char) (h : c.isDigit = true) :
    isSpaceChar c = false := by
  simp only [isSpaceChar, Bool.or_eq_false_iff, beq_eq_false_iff_ne, ne_eq]
  refine ⟨⟨⟨⟨⟨?_, ?_⟩, ?_⟩, ?_⟩, ?_⟩, ?_⟩ <;> rintro rfl <;> simp at h

theorem stripChars_eq_self {cs : List Char}
    (h : ∀ c ∈ cs, isSpaceChar c = false) : stripChars cs = cs := by
  unfold stripChars
  rw [dropWhile_eq_self_of_all h, dropWhile_eq_self_of_all, List.reverse_reverse]
  intro c hc
  exact h c (List.mem_reverse.mp hc)

theorem validDigitsFrom_of_digits (l : List Char)
    (h : ∀ c ∈ l, c.isDigit = true) : validDigitsFrom false l = true := by
  induction l with
  | nil => rfl
  | cons c rest ih =>
    have hc : c.isDigit = true := h c (List.mem_cons_self c rest)
    simp only [validDigitsFrom]
    rw [if_neg (by rintro rfl; simp at hc)]
    simp [hc, ih (fun d hd => h d (List.mem_cons_of_mem c hd))]

theorem validDigitRun_of_digits {cs : List Char} (hne : cs ≠ [])
    (hd : ∀ c ∈ cs, c.isDigit = true) : validDigitRun cs = true := by
  obtain ⟨c, rest, rfl⟩ := List.exists_cons_of_ne_nil hne
  simp only [validDigitRun, Bool.and_eq_true]
  exact ⟨hd c (List.mem_cons_self c rest),
    validDigitsFrom_of_digits rest (fun d hd2 => hd d (List.mem_cons_of_mem c hd2))⟩

theorem stripUnderscores_of_digits {cs : List Char}
    (hd : ∀ c ∈ cs, c.isDigit = true) : stripUnderscores cs = cs := by
  rw [stripUnderscores, List.filter_eq_self]
  intro c hc
  have hdig := hd c hc
  simp only [Bool.not_eq_true', beq_eq_false_iff_ne, ne_eq]
  rintro rfl
  simp at hdig

theorem parsePyIntChars_of_digits {cs : List Char} (hne : cs ≠ [])
    (hd : ∀ c ∈ cs, c.isDigit = true) :
    parsePyIntChars cs = some (digitsToNat cs : Int) := by
  unfold parsePyIntChars
  rw [stripChars_eq_self (fun c hc => isDigit_not_space c (hd c hc))]
  obtain ⟨c, rest, rfl⟩ := List.exists_cons_of_ne_nil hne
  have hc : c.isDigit = true := hd c (by simp)
  have hm : c ≠ '-' := by rintro rfl; simp at hc
  have hp : c ≠ '+' := by rintro rfl; simp at hc
  rw [parseSigned, if_neg hm, if_neg hp,
    if_pos (validDigitRun_of_digits (List.cons_ne_nil c rest) hd),
    stripUnderscores_of_digits hd]

/-- Python round trip: `int(str(n)) = n` for every natural number. -/
theorem parsePyInt_natRepr (n : Nat) : parsePyInt (natRepr n) = some (n : Int) := by
  show parsePyIntChars (natToDigits n) = some (n : Int)
  rw [parsePyIntChars_of_digits (natToDigits_ne_nil n) (natToDigits_all_digit n),
    digitsToNat_natToDigits]

theorem toList_append (a b : String) : (a ++ b).toList = a.toList ++ b.toList := rfl

/-- Python round trip: `int(str(n)) = n` for every integer. -/
theorem parsePyInt_intRepr (n : Int) : parsePyInt (intRepr n) = some n := by
  unfold intRepr
  by_cases hn : n < 0
  · rw [if_pos hn]
    show parsePyIntChars (("-" ++ natRepr n.natAbs).toList) = some n
    rw [toList_append]
    show parsePyIntChars ('-' :: natToDigits n.natAbs) = some n
    unfold parsePyIntChars
    rw [stripChars_eq_self]
    · rw [parseSigned, if_pos rfl,
        if_pos (validDigitRun_of_digits (natToDigits_ne_nil n.natAbs)
          (natToDigits_all_digit n.natAbs)),
        stripUnderscores_of_digits (natToDigits_all_digit n.natAbs),
        digitsToNat_natToDigits]
      congr 1
      omega
    · intro c hc
      rcases List.mem_cons.mp hc with rfl | hc
      · decide
      · exact isDigit_not_space c (natToDigits_all_digit _ c hc)
  · rw [if_neg hn]
    rw [parsePyInt_natRepr]
    congr 1
    omega

/-! ## The Redis database and its primitive commands

The spec's external-interface table: `set`, `get`, `increment` (`INCR`),
`append` (`RPUSH`), `range` (`LRANGE`), `flush_all` (`FLUSHDB`).  `INCR`
creates a counter at 0 when absent, so counters are a total map to `Nat`. -/

/-- The state of the backing Redis database. -/
structure RedisState where
  strs : String → Option String
  lists : String → List String
  counters : String → Nat

/-- The empty database. -/
def emptyRedis : RedisState :=
  { strs := fun _ => none, lists := fun _ => [], counters := fun _ => 0 }

/-- `SET key value`: unconditional write/overwrite. -/
def redisSet (st : RedisState) (k v : String) : RedisState :=
  { st with strs := fun q => if q = k then some v else st.strs q }

/-- `GET key`: read-only; `none` models the `nil` ("absent") reply. -/
def redisGet (st : RedisState) (k : String) : Option String := st.strs k

/-- `INCR key`: atomic +1, creating the counter at 0 if absent; returns the
new value. -/
def redisIncr (st : RedisState) (k : String) : RedisState × Nat :=
  ({ st with counters := fun q => if q = k then st.counters k + 1 else st.counters q },
   st.counters k + 1)

/-- `RPUSH key entry`: atomic append to the tail of a list. -/
def redisRpush (st : RedisState) (k e : String) : RedisState :=
  { st with lists := fun q => if q = k then st.lists k ++ [e] else st.lists q }

/-- `LRANGE key start stop`: inclusive slice, negative indices counted from
the end, clamped to the list; `(0, -1)` reads the whole list. -/
def redisLrange (st : RedisState) (k : String) (start stop : Int) : List String :=
  let l := st.lists k
  let n : Int := l.length
  let s := max (if start < 0 then n + start else start) 0
  let e := min (if stop < 0 then n + stop else stop) (n - 1)
  (l.drop s.toNat).take (e + 1 - s).toNat

/-- `FLUSHDB`: unconditional wipe of all keys, lists and counters. -/
def redisFlushdb (_st : RedisState) : RedisState := emptyRedis

theorem redisLrange_all (st : RedisState) (k : String) :
    redisLrange st k 0 (-1) = st.lists k := by
  unfold redisLrange
  norm_num

/-! ## The `Cache` class and its decorators

`Cache.__init__` creates the Redis handle and flushes the database, so a
cache instance is just the `RedisState` after the wipe.  A method of the
class is a state transformer; `some r` is a normal return and `none` a
propagating exception (`StoreUnavailable` from `self._redis.set`). -/

/-- The type of an instrumented-store-shaped method: it takes the `data`
argument and the database, and returns the new database plus the returned
key, or `none` when an exception propagates. -/
def PyMethod := PyVal → RedisState → RedisState × Option String

/-- `Cache.__init__`: `self._redis = redis.Redis(); self._redis.flushdb()`. -/
def Cache.init (prior : RedisState) : RedisState := redisFlushdb prior

/-- Python `repr` of a stored value as it appears inside `str(args)`
(quote escaping inside string literals is not modelled; no claim stores a
quote character). -/
def pyRepr : PyVal → String
  | .s t => "'" ++ t ++ "'"
  | .b t => "b'" ++ t ++ "'"
  | .i n => intRepr n

/-- `str(args)` for the one-element positional argument tuple `(data,)` of
`Cache.store` (the implicit receiver is excluded, as in the source). -/
def strArgs (v : PyVal) : String := "(" ++ pyRepr v ++ ",)"

/-- The `count_calls` decorator: `INCR` the counter named by the method's
`__qualname__` (returned value ignored), then invoke the wrapped method. -/
def count_calls (qualname : String) (method : PyMethod) : PyMethod :=
  fun v st =>
    let st1 := (redisIncr st qualname).1
    method v st1

/-- The `call_history` decorator: `RPUSH str(args)` to `<qualname>:inputs`,
invoke the wrapped method, then `RPUSH str(output)` to `<qualname>:outputs`.
If the wrapped method raises, the exception propagates and no output entry
is appended (`str(output)` of the returned key string is the key itself). -/
def call_history (qualname : String) (method : PyMethod) : PyMethod :=
  fun v st =>
    let st1 := redisRpush st (qualname ++ ":inputs") (strArgs v)
    match method v st1 with
    | (st2, none) => (st2, none)
    | (st2, some out) => (redisRpush st2 (qualname ++ ":outputs") out, some out)

/-- The body of `Cache.store` before decoration: generate a fresh key
(passed in as `key`, standing for `str(uuid.uuid4())`), `SET` the encoded
value under it, and return the key.  `fail = true` models `self._redis.set`
raising `StoreUnavailable`: nothing is written and the exception
propagates. -/
def storeBase (key : String) (fail : Bool) : PyMethod :=
  fun v st =>
    if fail then (st, none)
    else (redisSet st key (encodeVal v), some key)

/-- `Cache.store` with its decorators, outermost first:
`@count_calls @call_history def store(self, data)`.  Both decorators see
`__qualname__ = "Cache.store"` (preserved by `functools.wraps`). -/
def Cache.store (key : String) (fail : Bool) : PyMethod :=
  count_calls "Cache.store" (call_history "Cache.store" (storeBase key fail))

/-- A conversion failure: `int()` raising `ValueError` on non-numeric bytes
(the spec's `FormatError` class). -/
inductive PyErr where
  | formatError
deriving DecidableEq, Repr

/-- `Cache.get(key)` with `fn=None`: the raw bytes, or `none` when the key
is absent.  The returned state is the database after the single `GET`,
which writes nothing. -/
def Cache.get (st : RedisState) (key : String) : RedisState × Option String :=
  (st, redisGet st key)

/-- `Cache.get(key, fn)` with a conversion function: absent keys return the
distinguished `Absent` (`Except.ok none`) without invoking `fn`; otherwise
`fn` is applied to the raw bytes and its failure propagates. -/
def Cache.getFn (fn : String → Except PyErr α) (st : RedisState) (key : String) :
    RedisState × Except PyErr (Option α) :=
  match redisGet st key with
  | none => (st, .ok none)
  | some data => (st, (fn data).map some)

/-- The conversion passed by `get_str`: `lambda d: d.decode("utf-8")`.
Bytes are modelled as their decoded text, so the decode is the identity and
never fails on values this program stores. -/
def utf8Decode (d : String) : Except PyErr String := .ok d

/-- The conversion passed by `get_int`: the builtin `int`, raising
`ValueError` (`FormatError`) on bytes that are not an integer literal. -/
def intConv (d : String) : Except PyErr Int :=
  match parsePyInt d with
  | some n => .ok n
  | none => .error .formatError

/-- `Cache.get_str`. -/
def Cache.get_str (st : RedisState) (key : String) :
    RedisState × Except PyErr (Option String) :=
  Cache.getFn utf8Decode st key

/-- `Cache.get_int`. -/
def Cache.get_int (st : RedisState) (key : String) :
    RedisState × Except PyErr (Option Int) :=
  Cache.getFn intConv st key

/-- `replay(method)`: the list of printed lines, header first.  `N` in the
header is the length of the `LRANGE <qualname>:inputs 0 -1` reply, and the
call lines pair inputs with outputs positionally (`zip` truncates to the
shorter log).  UTF-8 decoding of the raw entries is the identity in the
model. -/
def replay (st : RedisState) (qualname : String) : List String :=
  let inputs := redisLrange st (qualname ++ ":inputs") 0 (-1)
  let outputs := redisLrange st (qualname ++ ":outputs") 0 (-1)
  (qualname ++ " was called " ++ natRepr inputs.length ++ " times:")
  :: (inputs.zip outputs).map fun p => qualname ++ "(*" ++ p.1 ++ ") -> " ++ p.2

/-- Run a sequence of successful `store` calls; each element supplies the
fresh uuid key and the stored value of one call. -/
def runStores (calls : List (String × PyVal)) (st : RedisState) : RedisState :=
  calls.foldl (fun s c => (Cache.store c.1 false c.2 s).1) st

/-- The counter key used by `count_calls` on `store`: its `__qualname__`. -/
def counterKey : String := "Cache.store"

/-- `f"{method.__qualname__}:inputs"` for `store`. -/
def inputsKey : String := "Cache.store" ++ ":inputs"

/-- `f"{method.__qualname__}:outputs"` for `store`. -/
def outputsKey : String := "Cache.store" ++ ":outputs"

/-! ### Observation lemmas for one `store` call -/

theorem store_counters (key : String) (fail : Bool) (v : PyVal) (st : RedisState)
    (q : String) :
    ((Cache.store key fail v st).1).counters q =
      if q = counterKey then st.counters counterKey + 1 else st.counters q := by
  cases fail <;> rfl

theorem store_lists_inputs (key : String) (fail : Bool) (v : PyVal) (st : RedisState) :
    ((Cache.store key fail v st).1).lists inputsKey =
      st.lists inputsKey ++ [strArgs v] := by
  cases fail <;> rfl

theorem store_ok_lists_outputs (key : String) (v : PyVal) (st : RedisState) :
    ((Cache.store key false v st).1).lists outputsKey =
      st.lists outputsKey ++ [key] := rfl

theorem store_fail_lists_outputs (key : String) (v : PyVal) (st : RedisState) :
    ((Cache.store key true v st).1).lists outputsKey = st.lists outputsKey := rfl

theorem store_ok_strs (key : String) (v : PyVal) (st : RedisState) (q : String) :
    ((Cache.store key false v st).1).strs q =
      if q = key then some (encodeVal v) else st.strs q := rfl

theorem store_fail_strs (key : String) (v : PyVal) (st : RedisState) (q : String) :
    ((Cache.store key true v st).1).strs q = st.strs q := rfl

theorem store_ok_ret (key : String) (v : PyVal) (st : RedisState) :
    (Cache.store key false v st).2 = some key := rfl

theorem store_fail_ret (key : String) (v : PyVal) (st : RedisState) :
    (Cache.store key true v st).2 = none := rfl

/-! ### Observation lemmas for a sequence of successful `store` calls -/

theorem runStores_cons (c : String × PyVal) (cs : List (String × PyVal))
    (st : RedisState) :
    runStores (c :: cs) st = runStores cs ((Cache.store c.1 false c.2 st).1) := rfl

theorem runStores_counters (calls : List (String × PyVal)) (st : RedisState) :
    (runStores calls st).counters counterKey =
      st.counters counterKey + calls.length := by
  induction calls generalizing st with
  | nil => rfl
  | cons c cs ih =>
    rw [runStores_cons, ih, store_counters, if_pos rfl, List.length_cons]
    omega

theorem runStores_lists_inputs (calls : List (String × PyVal)) (st : RedisState) :
    (runStores calls st).lists inputsKey =
      st.lists inputsKey ++ calls.map (fun c => strArgs c.2) := by
  induction calls generalizing st with
  | nil => simp [runStores]
  | cons c cs ih =>
    rw [runStores_cons, ih, store_lists_inputs, List.map_cons, List.append_assoc,
      List.singleton_append]

theorem runStores_lists_outputs (calls : List (String × PyVal)) (st : RedisState) :
    (runStores calls st).lists outputsKey =
      st.lists outputsKey ++ calls.map (fun c => c.1) := by
  induction calls generalizing st with
  | nil => simp [runStores]
  | cons c cs ih =>
    rw [runStores_cons, ih, store_ok_lists_outputs, List.map_cons, List.append_assoc,
      List.singleton_append]

theorem runStores_strs_other (calls : List (String × PyVal)) (st : RedisState)
    (k : String) (h : ∀ c ∈ calls, c.1 ≠ k) :
    (runStores calls st).strs k = st.strs k := by
  induction calls generalizing st with
  | nil => rfl
  | cons c cs ih =>
    rw [runStores_cons, ih _ (fun d hd => h d (List.mem_cons_of_mem c hd)),
      store_ok_strs, if_neg]
    intro hk
    exact h c (List.mem_cons_self c cs) (by rw [hk])

/-- The raw bytes read back for a key just written by a successful `store`:
always the byte encoding of the stored value. -/
theorem get_after_store (st : RedisState) (key : String) (v : PyVal) :
    (Cache.get ((Cache.store key false v st).1) key).2 = some (encodeVal v) := by
  simp [Cache.get, redisGet, store_ok_strs]

/-! ## Claims -/

/-- C1, as stated, is false: `get` without a conversion returns the raw
bytes the store holds, so for a text value `"foo"` the reply is the bytes
`b"foo"`, which Python's `==` does not equate with the original `str`.
Concretely: `get(store("foo")) == b"foo" ≠ "foo"`. -/
theorem C1_counterexample :
    ((Cache.get ((Cache.store "k" false (PyVal.s "foo") (Cache.init emptyRedis)).1)
        "k").2).map PyVal.b ≠ some (PyVal.s "foo") := by
  decide

/-- C1 (amended): `get(store(v))` returns the byte encoding of `v`, so the
round trip is the identity exactly on bytes values; the original value is
recovered by the matching decoder — `get_str` for text and `get_int` for
integers (`get_int(store(v)) == int(v)`). -/
theorem C1_roundtrip (st : RedisState) (key : String) (v : PyVal) :
    (Cache.get ((Cache.store key false v st).1) key).2 = some (encodeVal v)
    ∧ (∀ t, v = PyVal.b t →
        ((Cache.get ((Cache.store key false v st).1) key).2).map PyVal.b = some v)
    ∧ (∀ t, v = PyVal.s t →
        (Cache.get_str ((Cache.store key false v st).1) key).2 = .ok (some t))
    ∧ (∀ n, v = PyVal.i n →
        (Cache.get_int ((Cache.store key false v st).1) key).2 = .ok (some n)) := by
  refine ⟨get_after_store st key v, ?_, ?_, ?_⟩
  · rintro t rfl
    rw [get_after_store]
    rfl
  · rintro t rfl
    simp [Cache.get_str, Cache.getFn, redisGet, store_ok_strs, utf8Decode, encodeVal,
      Except.map]
  · rintro n rfl
    simp [Cache.get_int, Cache.getFn, redisGet, store_ok_strs, intConv, encodeVal,
      parsePyInt_intRepr, Except.map]

theorem C1_roundtrip_witness :
    ((Cache.get ((Cache.store "k" false (PyVal.b "x") emptyRedis).1) "k").2).map PyVal.b
      = some (PyVal.b "x")
    ∧ (Cache.get_str ((Cache.store "k" false (PyVal.s "foo") emptyRedis).1) "k").2
      = .ok (some "foo")
    ∧ (Cache.get_int ((Cache.store "k" false (PyVal.i 42) emptyRedis).1) "k").2
      = .ok (some 42) :=
  ⟨(C1_roundtrip emptyRedis "k" (PyVal.b "x")).2.1 "x" rfl,
   (C1_roundtrip emptyRedis "k" (PyVal.s "foo")).2.2.1 "foo" rfl,
   (C1_roundtrip emptyRedis "k" (PyVal.i 42)).2.2.2 42 rfl⟩

/-- C2: after any sequence of completed `store` calls on a freshly
constructed cache, the `Cache.store` counter and the `:inputs` log length
both equal the number of calls — and hence equal each other; since the call
list is arbitrary, this holds after every completed operation. -/
theorem C2_counter_matches_log (prior : RedisState) (calls : List (String × PyVal)) :
    (runStores calls (Cache.init prior)).counters counterKey = calls.length
    ∧ ((runStores calls (Cache.init prior)).lists inputsKey).length = calls.length
    ∧ (runStores calls (Cache.init prior)).counters counterKey
      = ((runStores calls (Cache.init prior)).lists inputsKey).length := by
  have h1 : (runStores calls (Cache.init prior)).counters counterKey = calls.length := by
    rw [runStores_counters]
    simp [Cache.init, redisFlushdb, emptyRedis]
  have h2 : ((runStores calls (Cache.init prior)).lists inputsKey).length = calls.length := by
    rw [runStores_lists_inputs]
    simp [Cache.init, redisFlushdb, emptyRedis]
  exact ⟨h1, h2, by rw [h1, h2]⟩

/-- C3: when the wrapped base operation raises (`fail = true`), the call
returns no key, the counter is still incremented and the serialized
arguments are still appended to `:inputs` (both wrappers act before the
base operation), nothing is written to the value store, no `:outputs` entry
is appended, and — starting from equal log lengths — the input log ends up
exactly one entry longer than the output log. -/
theorem C3_failure_asymmetry (st : RedisState) (key : String) (v : PyVal)
    (h : (st.lists inputsKey).length = (st.lists outputsKey).length) :
    (Cache.store key true v st).2 = none
    ∧ ((Cache.store key true v st).1).counters counterKey
      = st.counters counterKey + 1
    ∧ ((Cache.store key true v st).1).lists inputsKey
      = st.lists inputsKey ++ [strArgs v]
    ∧ ((Cache.store key true v st).1).lists outputsKey = st.lists outputsKey
    ∧ (∀ q, ((Cache.store key true v st).1).strs q = st.strs q)
    ∧ (((Cache.store key true v st).1).lists inputsKey).length
      = (((Cache.store key true v st).1).lists outputsKey).length + 1 := by
  refine ⟨store_fail_ret key v st, ?_, store_lists_inputs key true v st,
    store_fail_lists_outputs key v st, store_fail_strs key v st, ?_⟩
  · rw [store_counters, if_pos rfl]
  · rw [store_lists_inputs, store_fail_lists_outputs, List.length_append, h]
    rfl

theorem C3_failure_asymmetry_witness :
    (emptyRedis.lists inputsKey).length = (emptyRedis.lists outputsKey).length
    ∧ (((Cache.store "k" true (PyVal.s "a") emptyRedis).1).lists inputsKey).length
      = (((Cache.store "k" true (PyVal.s "a") emptyRedis).1).lists outputsKey).length + 1 :=
  ⟨rfl, (C3_failure_asymmetry emptyRedis "k" (PyVal.s "a") rfl).2.2.2.2.2⟩

/-- C4: `replay` prints a header `"<identity> was called <N> times:"` with
`N` the full `:inputs` log length, followed by one line
`"<identity>(*<inputs[i]>) -> <outputs[i]>"` per index in log order; the
pairing is `zip`, so with unequal logs exactly `min` of the two lengths of
call lines are printed, and with empty logs only the header (count 0) is
printed. -/
theorem C4_replay_format (st : RedisState) (qualname : String) :
    replay st qualname
      = (qualname ++ " was called "
            ++ natRepr (st.lists (qualname ++ ":inputs")).length ++ " times:")
        :: ((st.lists (qualname ++ ":inputs")).zip
              (st.lists (qualname ++ ":outputs"))).map
             (fun p => qualname ++ "(*" ++ p.1 ++ ") -> " ++ p.2)
    ∧ (replay st qualname).length
      = 1 + min (st.lists (qualname ++ ":inputs")).length
            (st.lists (qualname ++ ":outputs")).length
    ∧ (st.lists (qualname ++ ":inputs") = [] →
        replay st qualname = [qualname ++ " was called " ++ natRepr 0 ++ " times:"]) := by
  have he : replay st qualname
      = (qualname ++ " was called "
            ++ natRepr (st.lists (qualname ++ ":inputs")).length ++ " times:")
        :: ((st.lists (qualname ++ ":inputs")).zip
              (st.lists (qualname ++ ":outputs"))).map
             (fun p => qualname ++ "(*" ++ p.1 ++ ") -> " ++ p.2) := by
    unfold replay
    rw [redisLrange_all, redisLrange_all]
  refine ⟨he, ?_, ?_⟩
  · rw [he]
    simp [List.length_zip]
    omega
  · intro hnil
    rw [he, hnil]
    simp

theorem C4_replay_format_witness :
    emptyRedis.lists ("Cache.store" ++ ":inputs") = []
    ∧ replay emptyRedis "Cache.store"
      = ["Cache.store" ++ " was called " ++ natRepr 0 ++ " times:"] :=
  ⟨rfl, (C4_replay_format emptyRedis "Cache.store").2.2 rfl⟩

/-- C5: when a key holds bytes that are a valid integer literal, `get_int`
returns that integer; when it holds bytes that are not, `get_int` raises
the `FormatError`-class failure (it neither returns a value nor reports
`Absent`). -/
theorem C5_get_int (st : RedisState) (key d : String)
    (hd : redisGet st key = some d) :
    (∀ n, parsePyInt d = some n → (Cache.get_int st key).2 = .ok (some n))
    ∧ (parsePyInt d = none →
        (Cache.get_int st key).2 = .error PyErr.formatError) := by
  constructor
  · intro n hn
    simp [Cache.get_int, Cache.getFn, hd, intConv, hn, Except.map]
  · intro hn
    simp [Cache.get_int, Cache.getFn, hd, intConv, hn, Except.map]

theorem C5_get_int_witness :
    redisGet (redisSet emptyRedis "k" "123") "k" = some "123"
    ∧ parsePyInt "123" = some 123
    ∧ (Cache.get_int (redisSet emptyRedis "k" "123") "k").2 = .ok (some 123)
    ∧ parsePyInt "1_0" = some 10
    ∧ (Cache.get_int (redisSet emptyRedis "u" "1_0") "u").2 = .ok (some 10)
    ∧ redisGet (redisSet emptyRedis "j" "abc") "j" = some "abc"
    ∧ parsePyInt "abc" = none
    ∧ (Cache.get_int (redisSet emptyRedis "j" "abc") "j").2
      = .error PyErr.formatError :=
  ⟨rfl, by decide,
   (C5_get_int (redisSet emptyRedis "k" "123") "k" "123" rfl).1 123 (by decide),
   by decide,
   (C5_get_int (redisSet emptyRedis "u" "1_0") "u" "1_0" rfl).1 10 (by decide),
   rfl, by decide,
   (C5_get_int (redisSet emptyRedis "j" "abc") "j" "abc" rfl).2 (by decide)⟩

/-- C6: a key never written by any `store` call on a freshly constructed
cache reads back as `Absent` (`none`), a non-error result, and the optional
conversion function is not applied — the reply is `ok none` for every
conceivable conversion function. -/
theorem C6_get_absent (prior : RedisState) (calls : List (String × PyVal))
    (k : String) (h : ∀ c ∈ calls, c.1 ≠ k) :
    (Cache.get (runStores calls (Cache.init prior)) k).2 = none
    ∧ (∀ (α : Type) (fn : String → Except PyErr α),
        (Cache.getFn fn (runStores calls (Cache.init prior)) k).2 = .ok none) := by
  have habs : redisGet (runStores calls (Cache.init prior)) k = none := by
    show (runStores calls (Cache.init prior)).strs k = none
    rw [runStores_strs_other calls (Cache.init prior) k h]
    rfl
  constructor
  · exact habs
  · intro α fn
    simp [Cache.getFn, habs]

theorem C6_get_absent_witness :
    (∀ c ∈ [(("a" : String), PyVal.s "x"), (("b" : String), PyVal.i 7)], c.1 ≠ "k")
    ∧ (Cache.get (runStores [("a", PyVal.s "x"), ("b", PyVal.i 7)]
        (Cache.init emptyRedis)) "k").2 = none
    ∧ (Cache.getFn intConv (runStores [("a", PyVal.s "x"), ("b", PyVal.i 7)]
        (Cache.init emptyRedis)) "k").2 = .ok none :=
  ⟨by decide,
   (C6_get_absent emptyRedis [("a", PyVal.s "x"), ("b", PyVal.i 7)] "k" (by decide)).1,
   (C6_get_absent emptyRedis [("a", PyVal.s "x"), ("b", PyVal.i 7)] "k" (by decide)).2
      Int intConv⟩

/-- C7: the call history preserves call order — after any sequence of
completed `store` calls on a fresh cache the `:inputs` log is exactly the
list of `str(args)` serializations in call order and the `:outputs` log is
exactly the list of returned keys in call order; in particular the i-th
entry of each log corresponds to the i-th call. -/
theorem C7_history_order (prior : RedisState) (calls : List (String × PyVal)) :
    (runStores calls (Cache.init prior)).lists inputsKey
      = calls.map (fun c => strArgs c.2)
    ∧ (runStores calls (Cache.init prior)).lists outputsKey
      = calls.map (fun c => c.1)
    ∧ (∀ i, ((runStores calls (Cache.init prior)).lists inputsKey).get? i
        = (calls.get? i).map (fun c => strArgs c.2))
    ∧ (∀ i, ((runStores calls (Cache.init prior)).lists outputsKey).get? i
        = (calls.get? i).map (fun c => c.1)) := by
  have h1 : (runStores calls (Cache.init prior)).lists inputsKey
      = calls.map (fun c => strArgs c.2) := by
    rw [runStores_lists_inputs]
    simp [Cache.init, redisFlushdb, emptyRedis]
  have h2 : (runStores calls (Cache.init prior)).lists outputsKey
      = calls.map (fun c => c.1) := by
    rw [runStores_lists_outputs]
    simp [Cache.init, redisFlushdb, emptyRedis]
  refine ⟨h1, h2, ?_, ?_⟩
  · intro i
    simp [h1]
  · intro i
    simp [h2]

/-- C8: constructing a cache flushes the whole database — whatever a prior
instance sharing the store had written, immediately after construction
every key is absent, every log is empty and every counter reads 0. -/
theorem C8_init_wipes (prior : RedisState) (q : String) :
    (Cache.init prior).strs q = none
    ∧ (Cache.init prior).lists q = []
    ∧ (Cache.init prior).counters q = 0 :=
  ⟨rfl, rfl, rfl⟩

/-- C9: the store holds only byte encodings — an unconverted `get` after
`store` returns `encodeVal v` for every value, and the encodings of the
integer `42`, the text `"42"` and the bytes `b"42"` are the identical
bytes `b"42"`, so the original type is not recoverable without a
caller-supplied conversion. -/
theorem C9_bytes_only (st : RedisState) (key : String) (v : PyVal) :
    (Cache.get ((Cache.store key false v st).1) key).2 = some (encodeVal v)
    ∧ encodeVal (PyVal.i 42) = "42"
    ∧ encodeVal (PyVal.s "42") = "42"
    ∧ encodeVal (PyVal.b "42") = "42" := by
  refine ⟨get_after_store st key v, ?_, rfl, rfl⟩
  show intRepr 42 = "42"
  have h42 : natToDigits 42 = ['4', '2'] := by
    rw [natToDigits]
    norm_num
    rw [natToDigits]
    norm_num
    exact ⟨by decide, by decide⟩
  rw [intRepr, if_neg (by omega)]
  show natRepr 42 = "42"
  rw [natRepr, h42]

/-- C10: the read path performs no writes — `get`, `get_str`, `get_int`
and `get` with any conversion function return the database unchanged
(every stored value, every counter and both call logs are untouched). -/
theorem C10_reads_pure (st : RedisState) (key : String) :
    (Cache.get st key).1 = st
    ∧ (Cache.get_str st key).1 = st
    ∧ (Cache.get_int st key).1 = st
    ∧ (∀ (α : Type) (fn : String → Except PyErr α), (Cache.getFn fn st key).1 = st) := by
  have h : ∀ (α : Type) (fn : String → Except PyErr α), (Cache.getFn fn st key).1 = st := by
    intro α fn
    unfold Cache.getFn
    cases redisGet st key <;> rfl
  exact ⟨rfl, h String utf8Decode, h Int intConv, h⟩

end RedisBasic
